import Mathlib

/-!
# Verification of the TAIPPA influencer matching / search core

Shallow embedding of the influencer–brand matching engine
(`taippa/routers/match.py`) and the directory search endpoint
(`taippa/routers/influencers.py`) of the TAIPPA repository, together with
proofs of the specification claims about them.

Modelling conventions:
* Python `float` is modelled by `ℚ` (exact rational arithmetic); the scores
  computed by the engine are small exact decimals, and no claim depends on
  binary floating-point artefacts.
* SQLAlchemy rows are plain Lean structures.  ORM fields that no claim ever
  touches (`language`, `avg_likes`, `avg_comments`, `audience_*`,
  timestamps) are elided from the structures; every field the matching and
  search code reads is present with the nullability of the ORM column
  (`Option` for nullable columns).
* The async SQL queries are modelled extensionally: a `select ... where`
  over the influencers table is a `List.filter` over the list of rows, an
  `order_by` is a stable sort (SQL leaves the order of ties unspecified;
  no claim depends on tie order in search results).
* Strings are handled with Lean's ASCII `Char.toLower`; Python's `str.lower`
  and `re` are Unicode-aware, but every claim is about ASCII behaviour.
-/

namespace TAIPPA

/-- Decidable equality on `Except`, for evaluating endpoint results on
concrete inputs. -/
instance {ε α : Type u} [DecidableEq ε] [DecidableEq α] :
    DecidableEq (Except ε α) := fun a b =>
  match a, b with
  | .ok x, .ok y =>
    match decEq x y with
    | isTrue h => isTrue (by rw [h])
    | isFalse h => isFalse (by intro hh; cases hh; exact h rfl)
  | .ok _, .error _ => isFalse (by intro hh; cases hh)
  | .error _, .ok _ => isFalse (by intro hh; cases hh)
  | .error x, .error y =>
    match decEq x y with
    | isTrue h => isTrue (by rw [h])
    | isFalse h => isFalse (by intro hh; cases hh; exact h rfl)

/-- An influencers-table row (`models.Influencer`).  `handle`, `name`,
`platform` and `tenant_id` are non-nullable columns; `followers`,
`engagement_rate`, `bio`, `topics`, `country` are nullable. -/
structure Influencer where
  id : String
  handle : String
  name : String
  platform : String
  followers : Option Int
  engagement_rate : Option ℚ
  bio : Option String
  topics : Option String
  country : Option String
  tenant_id : String
deriving DecidableEq, Repr

/-- A brands-table row (`models.Brand`), restricted to the fields the
matching code reads. `name` is non-nullable; `description`, `industry`,
`target_audience` are nullable. -/
structure Brand where
  id : String
  name : String
  description : Option String
  industry : Option String
  target_audience : Option String
  tenant_id : String
deriving DecidableEq, Repr

/-- An HTTP error as raised by `HTTPException(status_code, detail)`. -/
structure HErr where
  code : Nat
  detail : String
deriving DecidableEq, Repr

/-! ## Tokenizer (`match.tokenize`) -/

/-- Python's `str.lower`, in ASCII scope (character-wise lower-casing). -/
def pyLower (s : String) : String := String.mk (s.data.map Char.toLower)

/-- A character matching Python's regex class `\w` (word character), in
ASCII scope: letter, digit or underscore.  `re.split(r"\W+", s)` cuts `s`
at every maximal run of characters that are not of this kind. -/
def isWordChar (c : Char) : Bool := c.isAlphanum || c == '_'

/-- Splits a character list into its maximal runs of word characters,
dropping the separators; the boundary empty strings that `re.split` can
produce are dropped exactly as the `if t` test of the source comprehension
drops them.  `acc` holds the current run, reversed. -/
def wordRuns (acc : List Char) : List Char → List (List Char)
  | [] => if acc.isEmpty then [] else [acc.reverse]
  | c :: cs =>
      if isWordChar c then wordRuns (c :: acc) cs
      else if acc.isEmpty then wordRuns [] cs
      else acc.reverse :: wordRuns [] cs

/-- The stop-word set of `tokenize`. -/
def stopWords : List String :=
  ["the", "and", "for", "with", "a", "an", "of", "in", "to", "on"]

/-- `match.tokenize`: lower-case, split on `\W+`, keep the non-empty tokens
that are not stop words and have length > 2.  Returns a *list* (the source
returns a Python list; callers wrap it in `set(...)`). -/
def tokenize (text : String) : List String :=
  if text = "" then []
  else
    ((wordRuns [] (pyLower text).data).map (fun l => String.mk l)).filter
      (fun t => !stopWords.contains t && decide (2 < t.length))

/-! ## Jaccard similarity (`match.match_influencers_for_brand`, lines 86–89) -/

/-- `semantic_score = len(intersection) / len(union) if union else 0.0`. -/
def jaccard (A B : Finset String) : ℚ :=
  if A ∪ B = ∅ then 0 else ((A ∩ B).card : ℚ) / ((A ∪ B).card : ℚ)

/-! ## Stable insertion sort

Python's `list.sort` is stable; SQL `ORDER BY` is modelled with the same
stable sort.  `after x y = true` means `x` must be placed strictly after
`y`; an element being inserted came earlier in the input than the elements
of the list it is inserted into, so on ties it is placed first. -/

def insertOrd (after : α → α → Bool) (x : α) : List α → List α
  | [] => [x]
  | y :: ys => if after x y then y :: insertOrd after x ys else x :: y :: ys

def sortOrd (after : α → α → Bool) (l : List α) : List α :=
  l.foldr (insertOrd after) []

/-! ## Matching engine (`match.match_influencers_for_brand`) -/

/-- Python's `round(x, 4)`: round to 4 decimal places.  (Python rounds
half-to-even on binary floats; no score computed in these claims lies on a
half-way point, so the tie rule is immaterial and round-half-up is used.) -/
def round4 (q : ℚ) : ℚ := (round (q * 10000) : ℚ) / 10000

/-- One entry of the returned recommendations list.  The source dict also
carries a human-readable `explanation` string rendering the three component
scores to two decimals; no claim is about its content, so it is elided. -/
structure MatchResult where
  influencer_id : String
  name : String
  handle : String
  platform : String
  followers : Option Int
  engagement_rate : Option ℚ
  score : ℚ
deriving DecidableEq, Repr

/-- `" ".join([brand.name or "", brand.description or "", brand.industry or
"", brand.target_audience or ""])` (a falsy `None`/`""` becomes `""`). -/
def brandCorpus (b : Brand) : String :=
  String.intercalate " "
    [b.name, b.description.getD "", b.industry.getD "", b.target_audience.getD ""]

/-- `" ".join([inf.name or "", inf.handle or "", inf.platform or ""])`. -/
def influencerCorpus (i : Influencer) : String :=
  String.intercalate " " [i.name, i.handle, i.platform]

/-- `set(tokenize(...))`. -/
def tokenSet (text : String) : Finset String := (tokenize text).toFinset

/-- Python `max` over a non-empty list (the `[]` case is unreachable: the
handler returns early when the influencer list is empty). -/
def pyMax : List Int → Int
  | [] => 0
  | x :: xs => xs.foldl max x

/-- `max_followers = max((inf.followers or 0) for inf in influencers) or 1`:
the maximum of `followers` over the pool with null read as 0, and the falsy
value 0 replaced by 1. -/
def maxFollowersDivisor (pool : List Influencer) : Int :=
  let m := pyMax (pool.map (fun i => i.followers.getD 0))
  if m = 0 then 1 else m

/-- `select(Influencer).where(Influencer.tenant_id == current_user.tenant_id)`. -/
def candidatePool (db : List Influencer) (T : String) : List Influencer :=
  db.filter (fun i => i.tenant_id == T)

/-- The per-candidate scoring of the loop body: Jaccard similarity of the
token sets, engagement normalisation against the pool maximum, the 0.6/0.4
weighted blend, and `round(overall_score, 4)`. -/
def scoreInfluencer (brandTokens : Finset String) (maxF : Int) (i : Influencer) :
    MatchResult :=
  let infTokens := tokenSet (influencerCorpus i)
  let semantic_score := jaccard brandTokens infTokens
  let followers_norm : ℚ := ((i.followers.getD 0 : Int) : ℚ) / (maxF : ℚ)
  let engagement_norm : ℚ := i.engagement_rate.getD 0 / 100
  let engagement_score := 0.5 * followers_norm + 0.5 * engagement_norm
  let overall_score := 0.6 * semantic_score + 0.4 * engagement_score
  { influencer_id := i.id
    name := i.name
    handle := i.handle
    platform := i.platform
    followers := i.followers
    engagement_rate := i.engagement_rate
    score := round4 overall_score }

/-- The `recommendations` list in candidate-pool order, before sorting. -/
def matchRecs (brand : Brand) (db : List Influencer) (T : String) :
    List MatchResult :=
  (candidatePool db T).map
    (scoreInfluencer (tokenSet (brandCorpus brand)) (maxFollowersDivisor (candidatePool db T)))

/-- Comparator of `recommendations.sort(key=lambda x: x["score"],
reverse=True)`: a record goes after another exactly when its score is
strictly smaller. -/
def afterScore (a b : MatchResult) : Bool := decide (a.score < b.score)

def brandNotFoundErr : HErr := ⟨404, "Brand not found"⟩
def accessDeniedErr : HErr := ⟨403, "Access denied"⟩
def topNRangeErr : HErr := ⟨422, "Input should be between 1 and 50"⟩
def influencerNotFoundErr : HErr := ⟨404, "Influencer not found"⟩

/-- `GET /match/brand/{brand_id}` (`match_influencers_for_brand`).
`top_n` is validated by FastAPI (`Query(5, ge=1, le=50)`) before the
handler runs; the handler then loads the brand by primary key (404 when
missing), rejects a brand of another tenant (403), scores the tenant's
influencer pool and returns the top `top_n` by descending rounded score. -/
def matchInfluencersForBrand (brands : List Brand) (db : List Influencer)
    (brand_id : String) (top_n : Nat) (T : String) :
    Except HErr (List MatchResult) :=
  if top_n < 1 ∨ 50 < top_n then .error topNRangeErr
  else
    match brands.find? (fun b => b.id == brand_id) with
    | none => .error brandNotFoundErr
    | some brand =>
      if brand.tenant_id ≠ T then .error accessDeniedErr
      else if (candidatePool db T).isEmpty then .ok []
      else .ok ((sortOrd afterScore (matchRecs brand db T)).take top_n)

/-! ## Search endpoint (`influencers.search_influencers`) -/

/-- The query parameters of `GET /influencers/search`.  `order` defaults to
`"desc"` and is the only non-optional one. -/
structure SearchCriteria where
  q : Option String := none
  platform : Option String := none
  min_followers : Option Int := none
  max_followers : Option Int := none
  min_engagement_rate : Option ℚ := none
  max_engagement_rate : Option ℚ := none
  country : Option String := none
  topic : Option String := none
  sort_by : Option String := none
  order : String := "desc"
deriving DecidableEq, Repr

/-- Whether `needle` is an initial segment of `hay`. -/
def listStartsWith : List Char → List Char → Bool
  | [], _ => true
  | _ :: _, [] => false
  | c :: cs, d :: ds => c == d && listStartsWith cs ds

/-- Whether `needle` occurs contiguously inside `hay`. -/
def listContainsSub (needle : List Char) : List Char → Bool
  | [] => listStartsWith needle []
  | d :: ds => listStartsWith needle (d :: ds) || listContainsSub needle ds

/-- `column.ilike(f"%{pat}%")` on a nullable column: case-insensitive
substring test; a SQL `NULL` column yields `NULL`, which a `WHERE` treats
as not passing.  (A `%`/`_` inside the needle would be a SQL wildcard; no
claim involves wildcard characters, so the needle is taken literally.) -/
def ilikeContains (field : Option String) (pat : String) : Bool :=
  match field with
  | none => false
  | some f => listContainsSub (pyLower pat).data (pyLower f).data

/-- `column.ilike(v)` with no wildcard in `v`: case-insensitive equality;
`NULL` does not pass. -/
def ilikeEq (field : Option String) (v : String) : Bool :=
  match field with
  | none => false
  | some f => pyLower f == pyLower v

/-- `(Influencer.followers >= min_followers) | (Influencer.followers == None)`
when `min_followers is not None`; no clause otherwise. -/
def minFollowersPass (m : Option Int) (i : Influencer) : Bool :=
  match m with
  | none => true
  | some v =>
    match i.followers with
    | none => true
    | some f => decide (v ≤ f)

/-- `(Influencer.followers <= max_followers) | (Influencer.followers == None)`. -/
def maxFollowersPass (m : Option Int) (i : Influencer) : Bool :=
  match m with
  | none => true
  | some v =>
    match i.followers with
    | none => true
    | some f => decide (f ≤ v)

/-- `(Influencer.engagement_rate >= min_engagement_rate) | (... == None)`. -/
def minEngagementPass (m : Option ℚ) (i : Influencer) : Bool :=
  match m with
  | none => true
  | some v =>
    match i.engagement_rate with
    | none => true
    | some e => decide (v ≤ e)

/-- `(Influencer.engagement_rate <= max_engagement_rate) | (... == None)`. -/
def maxEngagementPass (m : Option ℚ) (i : Influencer) : Bool :=
  match m with
  | none => true
  | some v =>
    match i.engagement_rate with
    | none => true
    | some e => decide (e ≤ v)

/-- The conjunction of `WHERE` clauses built by `search_influencers`, in
source order: the mandatory tenant scope, then — each one only when the
parameter is set (`if q:` and the string filters also skip `""`, the
numeric ones test `is not None`) — the four-field text search, platform,
country, topic, and the four null-permissive range clauses. -/
def passesFilters (c : SearchCriteria) (T : String) (i : Influencer) : Bool :=
  (i.tenant_id == T)
  && (match c.q with
      | none => true
      | some q =>
        if q == "" then true
        else ilikeContains (some i.name) q || ilikeContains (some i.handle) q
          || ilikeContains i.topics q || ilikeContains i.bio q)
  && (match c.platform with
      | none => true
      | some p => if p == "" then true else ilikeEq (some i.platform) p)
  && (match c.country with
      | none => true
      | some co => if co == "" then true else ilikeEq i.country co)
  && (match c.topic with
      | none => true
      | some t => if t == "" then true else ilikeContains i.topics t)
  && minFollowersPass c.min_followers i
  && maxFollowersPass c.max_followers i
  && minEngagementPass c.min_engagement_rate i
  && maxEngagementPass c.max_engagement_rate i

/-- `getattr(Influencer, sort_by)` for `sort_by ∈ {followers,
engagement_rate}`, read off a row. -/
def sortColumn (sb : String) (i : Influencer) : Option ℚ :=
  if sb == "followers" then i.followers.map (fun v => (v : ℚ)) else i.engagement_rate

/-- SQL comparison of nullable keys as SQLite orders them: `NULL` sorts
before every value. -/
def optColLt (a b : Option ℚ) : Bool :=
  match a, b with
  | none, none => false
  | none, some _ => true
  | some _, none => false
  | some x, some y => decide (x < y)

/-- `order.lower() == "desc"`. -/
def orderDesc (order : String) : Bool := pyLower order == "desc"

/-- `GET /influencers/search`: filter the tenant's influencers by the
criteria and, when `sort_by in {"followers", "engagement_rate"}`, order by
that column, descending when `order.lower() == "desc"` and ascending
otherwise. -/
def searchInfluencers (db : List Influencer) (c : SearchCriteria) (T : String) :
    List Influencer :=
  let filtered := db.filter (passesFilters c T)
  if c.sort_by == some "followers" || c.sort_by == some "engagement_rate" then
    let key := sortColumn (c.sort_by.getD "")
    if orderDesc c.order then
      sortOrd (fun x y => optColLt (key x) (key y)) filtered
    else
      sortOrd (fun x y => optColLt (key y) (key x)) filtered
  else filtered

/-! ## Single-influencer CRUD (`influencers.get/update/delete_influencer`)

All three endpoints share the guard
`if not influencer or influencer.tenant_id != current_user.tenant_id:
raise HTTPException(404, "Influencer not found")`.
`session.get(Influencer, id)` is a primary-key lookup, modelled as `find?`
on the row's unique `id`.  The admin-role guard on update/delete happens
upstream of the handler and is orthogonal to the claims. -/

/-- `InfluencerUpdate` payload (`schemas.InfluencerUpdate`), restricted to
the modelled columns.  `some v` means the field was supplied; Pydantic's
`exclude_unset` distinction between "unset" and "set to null" is not needed
by any claim. -/
structure InfluencerUpdate where
  handle : Option String := none
  name : Option String := none
  platform : Option String := none
  followers : Option Int := none
  engagement_rate : Option ℚ := none
  bio : Option String := none
  topics : Option String := none
  country : Option String := none
deriving DecidableEq, Repr

/-- The `setattr` loop over the supplied fields. -/
def applyUpdate (u : InfluencerUpdate) (i : Influencer) : Influencer :=
  { i with
    handle := u.handle.getD i.handle
    name := u.name.getD i.name
    platform := u.platform.getD i.platform
    followers := match u.followers with | some v => some v | none => i.followers
    engagement_rate :=
      match u.engagement_rate with | some v => some v | none => i.engagement_rate
    bio := match u.bio with | some v => some v | none => i.bio
    topics := match u.topics with | some v => some v | none => i.topics
    country := match u.country with | some v => some v | none => i.country }

/-- `GET /influencers/{influencer_id}`. -/
def getInfluencer (db : List Influencer) (idv T : String) :
    Except HErr Influencer :=
  match db.find? (fun i => i.id == idv) with
  | none => .error influencerNotFoundErr
  | some i =>
    if i.tenant_id ≠ T then .error influencerNotFoundErr else .ok i

/-- `PUT /influencers/{influencer_id}`: returns the updated row and the
updated table. -/
def updateInfluencer (db : List Influencer) (idv : String)
    (u : InfluencerUpdate) (T : String) :
    Except HErr (Influencer × List Influencer) :=
  match db.find? (fun i => i.id == idv) with
  | none => .error influencerNotFoundErr
  | some i =>
    if i.tenant_id ≠ T then .error influencerNotFoundErr
    else
      let i' := applyUpdate u i
      .ok (i', db.map (fun j => if j.id == idv then i' else j))

/-- `DELETE /influencers/{influencer_id}`: returns the updated table. -/
def deleteInfluencer (db : List Influencer) (idv T : String) :
    Except HErr (List Influencer) :=
  match db.find? (fun i => i.id == idv) with
  | none => .error influencerNotFoundErr
  | some i =>
    if i.tenant_id ≠ T then .error influencerNotFoundErr
    else .ok (db.filter (fun j => !(j.id == idv)))

/-! ## Concrete fixtures

The worked example of spec §8: brand EcoWear against influencer
Eco Fashionista, with a second influencer fixing the pool maximum at
1,000,000 followers; and a two-row directory for the search examples. -/

def ecoBrand : Brand :=
  { id := "brand-eco", name := "EcoWear",
    description := some "sustainable streetwear", industry := some "fashion",
    target_audience := some "young adults", tenant_id := "t1" }

def ecoInf : Influencer :=
  { id := "inf-eco", handle := "ecofashionista", name := "Eco Fashionista",
    platform := "instagram", followers := some 500000,
    engagement_rate := some (7/2), bio := none, topics := none,
    country := none, tenant_id := "t1" }

def megaInf : Influencer :=
  { id := "inf-mega", handle := "mega", name := "Mega",
    platform := "instagram", followers := some 1000000,
    engagement_rate := none, bio := none, topics := none,
    country := none, tenant_id := "t1" }

def ecoRes : MatchResult :=
  { influencer_id := "inf-eco", name := "Eco Fashionista",
    handle := "ecofashionista", platform := "instagram",
    followers := some 500000, engagement_rate := some (7/2),
    score := 107/1000 }

def megaRes : MatchResult :=
  { influencer_id := "inf-mega", name := "Mega", handle := "mega",
    platform := "instagram", followers := some 1000000,
    engagement_rate := none, score := 1/5 }

def rowA : Influencer :=
  { id := "row-a", handle := "handle-a", name := "Anna",
    platform := "instagram", followers := some 10, engagement_rate := none,
    bio := none, topics := none, country := none, tenant_id := "t1" }

def rowB : Influencer :=
  { id := "row-b", handle := "handle-b", name := "Bela",
    platform := "instagram", followers := some 20, engagement_rate := none,
    bio := none, topics := none, country := none, tenant_id := "t1" }

def rowNull : Influencer :=
  { id := "row-null", handle := "handle-n", name := "Nuri",
    platform := "instagram", followers := none, engagement_rate := none,
    bio := none, topics := none, country := none, tenant_id := "t1" }

/-! ## Order-theoretic properties of the stable insertion sort -/

theorem insertOrd_perm (after : α → α → Bool) (x : α) (l : List α) :
    List.Perm (insertOrd after x l) (x :: l) := by
  induction l with
  | nil => simp [insertOrd]
  | cons y ys ih =>
      by_cases h : after x y
      · simpa [insertOrd, h] using
          ((ih.cons y).trans (List.Perm.swap x y ys))
      · simp [insertOrd, h]

theorem sortOrd_perm (after : α → α → Bool) (l : List α) :
    List.Perm (sortOrd after l) l := by
  induction l with
  | nil => simp [sortOrd]
  | cons x xs ih =>
      exact (insertOrd_perm after x (sortOrd after xs)).trans (ih.cons x)

theorem mem_sortOrd (after : α → α → Bool) (x : α) (l : List α) :
    x ∈ sortOrd after l ↔ x ∈ l :=
  (sortOrd_perm after l).mem_iff

theorem length_sortOrd (after : α → α → Bool) (l : List α) :
    (sortOrd after l).length = l.length :=
  (sortOrd_perm after l).length_eq

theorem pairwise_insertOrd {R : α → α → Prop} {after : α → α → Bool}
    (hT : Transitive R)
    (hf : ∀ a b, after a b = false → R a b)
    (ht : ∀ a b, after a b = true → R b a)
    (x : α) {l : List α} (hl : l.Pairwise R) :
    (insertOrd after x l).Pairwise R := by
  induction l with
  | nil => simp [insertOrd]
  | cons y ys ih =>
      rcases List.pairwise_cons.1 hl with ⟨hy, hys⟩
      by_cases h : after x y
      · rw [insertOrd, if_pos h]
        refine List.pairwise_cons.2 ⟨?_, ih hys⟩
        intro z hz
        rcases List.mem_cons.1 (((insertOrd_perm after x ys).mem_iff).1 hz) with hz | hz
        · exact hz ▸ ht x y h
        · exact hy z hz
      · rw [insertOrd, if_neg h]
        refine List.pairwise_cons.2 ⟨?_, hl⟩
        intro z hz
        rcases List.mem_cons.1 hz with hz | hz
        · exact hz ▸ hf x y (by simpa using h)
        · exact hT (hf x y (by simpa using h)) (hy z hz)

theorem sortOrd_pairwise {R : α → α → Prop} {after : α → α → Bool}
    (hT : Transitive R)
    (hf : ∀ a b, after a b = false → R a b)
    (ht : ∀ a b, after a b = true → R b a)
    (l : List α) : (sortOrd after l).Pairwise R := by
  induction l with
  | nil => simp [sortOrd]
  | cons x xs ih => exact pairwise_insertOrd hT hf ht x ih

/-! ## Bridge lemmas -/

theorem mem_searchInfluencers (db : List Influencer) (c : SearchCriteria)
    (T : String) (i : Influencer) :
    i ∈ searchInfluencers db c T ↔ i ∈ db ∧ passesFilters c T i = true := by
  unfold searchInfluencers
  by_cases h : (c.sort_by == some "followers" || c.sort_by == some "engagement_rate") = true
  · rw [if_pos h]
    by_cases h2 : orderDesc c.order = true
    · rw [if_pos h2, mem_sortOrd, List.mem_filter]
    · rw [if_neg h2, mem_sortOrd, List.mem_filter]
  · rw [if_neg h, List.mem_filter]

theorem minFollowersPass_of_none (m : Option Int) (i : Influencer)
    (h : i.followers = none) : minFollowersPass m i = true := by
  cases m with
  | none => rfl
  | some v => simp [minFollowersPass, h]

theorem maxFollowersPass_of_none (m : Option Int) (i : Influencer)
    (h : i.followers = none) : maxFollowersPass m i = true := by
  cases m with
  | none => rfl
  | some v => simp [maxFollowersPass, h]

theorem minEngagementPass_of_none (m : Option ℚ) (i : Influencer)
    (h : i.engagement_rate = none) : minEngagementPass m i = true := by
  cases m with
  | none => rfl
  | some v => simp [minEngagementPass, h]

theorem maxEngagementPass_of_none (m : Option ℚ) (i : Influencer)
    (h : i.engagement_rate = none) : maxEngagementPass m i = true := by
  cases m with
  | none => rfl
  | some v => simp [maxEngagementPass, h]

/-- Filtering by an exact score commutes with the stable descending
insertion: the inserted element lands in front of the tied block exactly
when its own score matches. -/
theorem filter_insertOrd_score (x : MatchResult) (l : List MatchResult) (s : ℚ) :
    (insertOrd afterScore x l).filter (fun r => r.score == s) =
      if x.score == s then x :: l.filter (fun r => r.score == s)
      else l.filter (fun r => r.score == s) := by
  induction l with
  | nil =>
      rw [insertOrd]
      by_cases hx : (x.score == s) = true
      · simp [List.filter, hx]
      · simp [List.filter, hx]
  | cons y ys ih =>
      by_cases h : afterScore x y = true
      · have hlt : x.score < y.score := by
          simpa [afterScore] using h
        rw [insertOrd, if_pos h, List.filter_cons, ih]
        by_cases hy : (y.score == s) = true
        · have hx : (x.score == s) = false := by
            have hys : y.score = s := by simpa using hy
            have : x.score ≠ s := by
              intro hxe
              exact absurd (hxe ▸ hlt) (by simp [hys])
            simpa using this
          simp [hx, hy, List.filter_cons]
        · simp [hy, List.filter_cons]
      · rw [insertOrd, if_neg h]
        by_cases hx : (x.score == s) = true
        · simp [hx, List.filter_cons]
        · simp [hx, List.filter_cons]

/-- Stability of the descending score sort: the sorted list restricted to
any one score value is the input list restricted to that value, in input
order. -/
theorem filter_sortOrd_score (l : List MatchResult) (s : ℚ) :
    (sortOrd afterScore l).filter (fun r => r.score == s) =
      l.filter (fun r => r.score == s) := by
  induction l with
  | nil => rfl
  | cons x xs ih =>
      show (insertOrd afterScore x (sortOrd afterScore xs)).filter _ = _
      rw [filter_insertOrd_score, ih, List.filter_cons]

/-- Every run produced by `wordRuns` consists of word characters. -/
theorem wordRuns_chars : ∀ (cs acc : List Char),
    (∀ c ∈ acc, isWordChar c = true) →
    ∀ l ∈ wordRuns acc cs, ∀ c ∈ l, isWordChar c = true := by
  intro cs
  induction cs with
  | nil =>
      intro acc hacc l hl
      rw [wordRuns] at hl
      by_cases h : acc.isEmpty
      · simp [h] at hl
      · rw [if_neg h] at hl
        rcases List.mem_singleton.1 hl with rfl
        intro c hc
        exact hacc c (List.mem_reverse.1 hc)
  | cons d ds ih =>
      intro acc hacc l hl
      rw [wordRuns] at hl
      by_cases hd : isWordChar d
      · rw [if_pos hd] at hl
        refine ih (d :: acc) ?_ l hl
        intro c hc
        rcases List.mem_cons.1 hc with rfl | hc
        · exact hd
        · exact hacc c hc
      · rw [if_neg hd] at hl
        by_cases he : acc.isEmpty
        · rw [if_pos he] at hl
          exact ih [] (by simp) l hl
        · rw [if_neg he] at hl
          rcases List.mem_cons.1 hl with rfl | hl
          · intro c hc
            exact hacc c (List.mem_reverse.1 hc)
          · exact ih [] (by simp) l hl

/-- Every run produced by `wordRuns` is non-empty. -/
theorem wordRuns_ne_nil : ∀ (cs acc : List Char),
    ∀ l ∈ wordRuns acc cs, l ≠ [] := by
  intro cs
  induction cs with
  | nil =>
      intro acc l hl
      rw [wordRuns] at hl
      by_cases h : acc.isEmpty
      · simp [h] at hl
      · rw [if_neg h] at hl
        rcases List.mem_singleton.1 hl with rfl
        simpa [List.isEmpty_iff] using h
  | cons d ds ih =>
      intro acc l hl
      rw [wordRuns] at hl
      by_cases hd : isWordChar d
      · rw [if_pos hd] at hl
        exact ih (d :: acc) l hl
      · rw [if_neg hd] at hl
        by_cases he : acc.isEmpty
        · rw [if_pos he] at hl
          exact ih [] l hl
        · rw [if_neg he] at hl
          rcases List.mem_cons.1 hl with rfl | hl
          · simpa [List.isEmpty_iff] using he
          · exact ih [] l hl

/-- A left fold of `max` over non-negative integers stays non-negative. -/
theorem foldl_max_nonneg : ∀ (l : List Int) (a : Int), 0 ≤ a →
    (∀ y ∈ l, 0 ≤ y) → 0 ≤ l.foldl max a := by
  intro l
  induction l with
  | nil => intro a ha _; simpa using ha
  | cons y ys ih =>
      intro a ha hy
      rw [List.foldl_cons]
      exact ih (max a y) (le_max_of_le_left ha) fun z hz => hy z (List.mem_cons_of_mem y hz)

/-! ## Evaluating the worked example -/

set_option maxRecDepth 40000

/-- A token set disjoint from a non-empty one has Jaccard similarity 0. -/
theorem jaccard_zero_of_disjoint (A B : Finset String) (hA : A.Nonempty)
    (hd : ∀ x ∈ A, x ∉ B) : jaccard A B = 0 := by
  have hinter : A ∩ B = ∅ := by
    rw [Finset.eq_empty_iff_forall_not_mem]
    intro x hx
    exact hd x (Finset.mem_inter.1 hx).1 (Finset.mem_inter.1 hx).2
  have hne : A ∪ B ≠ ∅ := by
    intro h
    rcases hA with ⟨a, ha⟩
    have hmem : a ∈ A ∪ B := Finset.mem_union_left _ ha
    rw [h] at hmem
    simp at hmem
  rw [jaccard, if_neg hne, hinter]
  simp

theorem jaccard_eco :
    jaccard (tokenSet (brandCorpus ecoBrand)) (tokenSet (influencerCorpus ecoInf)) = 0 := by
  refine jaccard_zero_of_disjoint _ _
    ⟨"ecowear", List.mem_toFinset.2 (by decide)⟩ ?_
  intro x hx hxB
  have hall : ∀ x ∈ tokenize (brandCorpus ecoBrand),
      ¬ x ∈ tokenize (influencerCorpus ecoInf) := by decide
  exact hall x (List.mem_toFinset.1 hx) (List.mem_toFinset.1 hxB)

theorem jaccard_mega :
    jaccard (tokenSet (brandCorpus ecoBrand)) (tokenSet (influencerCorpus megaInf)) = 0 := by
  refine jaccard_zero_of_disjoint _ _
    ⟨"ecowear", List.mem_toFinset.2 (by decide)⟩ ?_
  intro x hx hxB
  have hall : ∀ x ∈ tokenize (brandCorpus ecoBrand),
      ¬ x ∈ tokenize (influencerCorpus megaInf) := by decide
  exact hall x (List.mem_toFinset.1 hx) (List.mem_toFinset.1 hxB)

theorem scoreInfluencer_eco :
    scoreInfluencer (tokenSet (brandCorpus ecoBrand)) 1000000 ecoInf = ecoRes := by
  simp only [scoreInfluencer, jaccard_eco, ecoRes, ecoInf, MatchResult.mk.injEq,
    true_and, and_true]
  with_unfolding_all decide

theorem scoreInfluencer_mega :
    scoreInfluencer (tokenSet (brandCorpus ecoBrand)) 1000000 megaInf = megaRes := by
  simp only [scoreInfluencer, jaccard_mega, megaRes, megaInf, MatchResult.mk.injEq,
    true_and, and_true]
  with_unfolding_all decide

/-- The spec §8 example evaluated end to end: EcoWear against the
two-influencer pool returns Mega (score 0.2) before Eco Fashionista
(score 0.107). -/
theorem ecoPipeline_eq :
    matchInfluencersForBrand [ecoBrand] [ecoInf, megaInf] "brand-eco" 5 "t1" =
      .ok [megaRes, ecoRes] := by
  have hctrl : matchInfluencersForBrand [ecoBrand] [ecoInf, megaInf] "brand-eco" 5 "t1" =
      .ok ((sortOrd afterScore (matchRecs ecoBrand [ecoInf, megaInf] "t1")).take 5) := rfl
  have hrecs : matchRecs ecoBrand [ecoInf, megaInf] "t1" =
      [scoreInfluencer (tokenSet (brandCorpus ecoBrand)) 1000000 ecoInf,
       scoreInfluencer (tokenSet (brandCorpus ecoBrand)) 1000000 megaInf] := rfl
  have hcmp : afterScore ecoRes megaRes = true := by with_unfolding_all decide
  rw [hctrl, hrecs, scoreInfluencer_eco, scoreInfluencer_mega]
  show Except.ok ((insertOrd afterScore ecoRes (insertOrd afterScore megaRes [])).take 5) = _
  rw [show insertOrd afterScore megaRes ([] : List MatchResult) = [megaRes] from rfl]
  rw [insertOrd, if_pos hcmp]
  rfl

/-! ## The claims -/

/-- C5: for all token sets A and B, the semantic similarity |A∩B| / |A∪B|
lies in [0,1]; similarity(A,A) = 1.0 whenever A is non-empty; and when both
sets are empty the similarity is 0.0, not an error. -/
theorem claim_C5 :
    (∀ A B : Finset String, 0 ≤ jaccard A B ∧ jaccard A B ≤ 1) ∧
    (∀ A : Finset String, A.Nonempty → jaccard A A = 1) ∧
    jaccard (∅ : Finset String) (∅ : Finset String) = 0 := by
  refine ⟨?_, ?_, ?_⟩
  · intro A B
    by_cases h : A ∪ B = ∅
    · rw [jaccard, if_pos h]
      norm_num
    · rw [jaccard, if_neg h]
      have hpos : (0 : ℚ) < ((A ∪ B).card : ℚ) := by
        have := Finset.card_pos.2 (Finset.nonempty_iff_ne_empty.2 h)
        exact_mod_cast this
      constructor
      · exact div_nonneg (by positivity) hpos.le
      · rw [div_le_one hpos]
        exact_mod_cast Finset.card_le_card (Finset.inter_subset_union)
  · intro A hA
    have h : A ∪ A ≠ ∅ := by
      rw [Finset.union_self]
      exact Finset.nonempty_iff_ne_empty.1 hA
    rw [jaccard, if_neg h, Finset.union_self, Finset.inter_self]
    have hc : ((A.card : ℚ)) ≠ 0 := by
      have := Finset.card_pos.2 hA
      positivity
    exact div_self hc
  · rw [jaccard, if_pos (by simp : (∅ ∪ ∅ : Finset String) = ∅)]

/-- Witness for C5 at concrete sets: the non-empty set `{"token"}` has
self-similarity 1. -/
theorem witness_C5 :
    jaccard ({"token"} : Finset String) ({"token"} : Finset String) = 1 :=
  claim_C5.2.1 {"token"} ⟨"token", by simp⟩

/-- C9: for every non-empty candidate pool (of rows satisfying the data
model's non-negativity of `followers`), the normalisation divisor is at
least 1: it is the pool maximum of `followers` (null read as 0), replaced
by 1 when that maximum is 0, so the `followers_norm` division is never a
division by zero. -/
theorem claim_C9 (pool : List Influencer) (hne : pool ≠ [])
    (hnn : ∀ i ∈ pool, 0 ≤ i.followers.getD 0) :
    1 ≤ maxFollowersDivisor pool := by
  match pool, hne with
  | x :: xs, _ =>
    have h0 : 0 ≤ pyMax ((x :: xs).map fun i => i.followers.getD 0) := by
      rw [List.map_cons, pyMax]
      refine foldl_max_nonneg _ _ (hnn x (List.mem_cons_self x xs)) ?_
      intro y hy
      rcases List.mem_map.1 hy with ⟨i, hi, rfl⟩
      exact hnn i (List.mem_cons_of_mem x hi)
    show 1 ≤
      (if pyMax ((x :: xs).map fun i => i.followers.getD 0) = 0 then 1
       else pyMax ((x :: xs).map fun i => i.followers.getD 0))
    split_ifs with h
    · exact le_refl 1
    · omega

/-- Witness for C9: a singleton pool with 10 followers has divisor ≥ 1. -/
theorem witness_C9 : 1 ≤ maxFollowersDivisor [rowA] :=
  claim_C9 [rowA] (by simp) (by decide)

/-- Counterexample to C3 as stated: `tokenize` keeps digits and underscores
inside tokens (it splits on `\W+`, i.e. on non-word characters, not on
non-alphabetic ones) and returns a list that can contain duplicates, not a
set. -/
theorem counterexample_C3 :
    tokenize "abc1 abc1" = ["abc1", "abc1"] ∧
    (∃ t ∈ tokenize "abc1 abc1", ∃ c ∈ t.data, c.isDigit = true) ∧
    (∃ t ∈ tokenize "snake_case", ∃ c ∈ t.data, c = '_') := by
  refine ⟨by decide, ?_, ?_⟩
  · exact ⟨"abc1", by decide, '1', by decide, by decide⟩
  · exact ⟨"snake_case", by decide, '_', by decide, by decide⟩

/-- C3 (amended): for every input string, `tokenize` lower-cases it, splits
on every run of non-word characters (anything other than a letter, digit or
underscore — so digits and underscores stay inside tokens), discards tokens
of length ≤ 2 and stop-word tokens, and returns the remaining tokens as a
list in input order with duplicates preserved (callers collapse them to a
set); empty input yields the empty list and the function never throws. -/
theorem claim_C3 :
    (∀ s : String, ∀ t ∈ tokenize s,
        t ≠ "" ∧ 2 < t.length ∧ t ∉ stopWords ∧ ∀ c ∈ t.data, isWordChar c = true) ∧
    tokenize "" = [] ∧
    tokenize "The RealFood_99 and ART of war ART" = ["realfood_99", "art", "war", "art"] := by
  refine ⟨?_, rfl, by decide⟩
  intro s t ht
  unfold tokenize at ht
  by_cases hs : s = ""
  · rw [if_pos hs] at ht
    simp at ht
  · rw [if_neg hs] at ht
    rcases List.mem_filter.1 ht with ⟨hmem, hpred⟩
    rcases List.mem_map.1 hmem with ⟨l, hl, rfl⟩
    rw [Bool.and_eq_true] at hpred
    obtain ⟨hstop, hlen⟩ := hpred
    refine ⟨?_, of_decide_eq_true hlen, ?_, ?_⟩
    · intro he
      exact wordRuns_ne_nil (pyLower s).data [] l hl (congrArg String.data he)
    · intro hmem2
      have hc : stopWords.contains (String.mk l) = true :=
        List.elem_eq_true_of_mem hmem2
      rw [hc] at hstop
      simp at hstop
    · intro c hc
      exact wordRuns_chars (pyLower s).data [] (by simp) l hl c hc

/-- Witness for C3 at a concrete token: `"war"` is produced and satisfies
the guarantees. -/
theorem witness_C3 :
    "war" ≠ "" ∧ 2 < "war".length ∧ "war" ∉ stopWords ∧
      ∀ c ∈ "war".data, isWordChar c = true :=
  claim_C3.1 "of war" "war" (by decide)

/-- C1: tenant isolation — every influencer a search returns belongs to the
scoping tenant (the tenant clause is always part of the query), and every
match result corresponds to an influencer of the requesting user's
tenant. -/
theorem claim_C1 :
    (∀ (db : List Influencer) (c : SearchCriteria) (T : String) (i : Influencer),
      i ∈ searchInfluencers db c T → i.tenant_id = T) ∧
    (∀ (brands : List Brand) (db : List Influencer) (bid : String) (n : Nat)
        (T : String) (res : List MatchResult),
      matchInfluencersForBrand brands db bid n T = .ok res →
      ∀ r ∈ res, ∃ i, i ∈ db ∧ i.tenant_id = T ∧ r.influencer_id = i.id) := by
  constructor
  · intro db c T i h
    have hp := ((mem_searchInfluencers db c T i).1 h).2
    unfold passesFilters at hp
    simp only [Bool.and_eq_true] at hp
    simpa using hp.1.1.1.1.1.1.1.1
  · intro brands db bid n T res h r hr
    rw [matchInfluencersForBrand] at h
    split at h
    · exact Except.noConfusion h
    · split at h
      · exact Except.noConfusion h
      · split at h
        · exact Except.noConfusion h
        · split at h
          · injection h with h'
            subst h'
            simp at hr
          · injection h with h'
            subst h'
            have hr2 : r ∈ sortOrd afterScore (matchRecs _ db T) :=
              List.mem_of_mem_take hr
            have hr3 := (mem_sortOrd _ _ _).1 hr2
            rw [matchRecs] at hr3
            rcases List.mem_map.1 hr3 with ⟨i, hi, rfl⟩
            rcases List.mem_filter.1 hi with ⟨hidb, hten⟩
            exact ⟨i, hidb, by simpa using hten, rfl⟩

/-- Witness for C1: the only row of a one-row directory search has the
scoping tenant, and the Eco Fashionista match result stems from a tenant-t1
influencer of the store. -/
theorem witness_C1 :
    rowA.tenant_id = "t1" ∧
    (∃ i, i ∈ [ecoInf, megaInf] ∧ i.tenant_id = "t1" ∧
      ecoRes.influencer_id = i.id) :=
  ⟨claim_C1.1 [rowA] {} "t1" rowA (by decide),
   claim_C1.2 [ecoBrand] [ecoInf, megaInf] "brand-eco" 5 "t1" [megaRes, ecoRes]
     ecoPipeline_eq ecoRes
     (List.mem_cons_of_mem megaRes (List.mem_cons_self ecoRes []))⟩

/-- C2: every returned match score equals
0.6 × semantic_score + 0.4 × (0.5 × followers_norm + 0.5 × engagement_norm)
rounded to 4 decimal places; and on the spec's example inputs
(semantic_score 0, followers_norm 0.5, engagement_norm 0.035) the returned
score is 0.107. -/
theorem claim_C2 :
    (∀ (brands : List Brand) (db : List Influencer) (bid : String) (n : Nat)
        (T : String) (res : List MatchResult),
      matchInfluencersForBrand brands db bid n T = .ok res →
      ∀ brand, brands.find? (fun b => b.id == bid) = some brand →
      ∀ r ∈ res, ∃ i, i ∈ candidatePool db T ∧
        r.score = round4 (0.6 * jaccard (tokenSet (brandCorpus brand))
            (tokenSet (influencerCorpus i)) +
          0.4 * (0.5 * (((i.followers.getD 0 : Int) : ℚ) /
                  ((maxFollowersDivisor (candidatePool db T) : Int) : ℚ)) +
                 0.5 * (i.engagement_rate.getD 0 / 100)))) ∧
    matchInfluencersForBrand [ecoBrand] [ecoInf, megaInf] "brand-eco" 5 "t1" =
      .ok [megaRes, ecoRes] ∧
    ecoRes.score = 107/1000 := by
  refine ⟨?_, ecoPipeline_eq, rfl⟩
  intro brands db bid n T res h brand hfind r hr
  rw [matchInfluencersForBrand] at h
  split at h
  · exact Except.noConfusion h
  · split at h
    · exact Except.noConfusion h
    · rename_i b heq
      rw [hfind] at heq
      injection heq with heq
      subst heq
      split at h
      · exact Except.noConfusion h
      · split at h
        · injection h with h'
          subst h'
          simp at hr
        · injection h with h'
          subst h'
          have hr2 : r ∈ sortOrd afterScore (matchRecs brand db T) :=
            List.mem_of_mem_take hr
          have hr3 := (mem_sortOrd _ _ _).1 hr2
          rw [matchRecs] at hr3
          rcases List.mem_map.1 hr3 with ⟨i, hi, rfl⟩
          exact ⟨i, hi, rfl⟩

/-- Witness for C2: the score formula instantiated on the worked example
for the Eco Fashionista result. -/
theorem witness_C2 :
    ∃ i, i ∈ candidatePool [ecoInf, megaInf] "t1" ∧
      ecoRes.score = round4 (0.6 * jaccard (tokenSet (brandCorpus ecoBrand))
          (tokenSet (influencerCorpus i)) +
        0.4 * (0.5 * (((i.followers.getD 0 : Int) : ℚ) /
                ((maxFollowersDivisor (candidatePool [ecoInf, megaInf] "t1") : Int) : ℚ)) +
               0.5 * (i.engagement_rate.getD 0 / 100))) :=
  claim_C2.1 [ecoBrand] [ecoInf, megaInf] "brand-eco" 5 "t1" [megaRes, ecoRes]
    ecoPipeline_eq ecoBrand rfl ecoRes
    (List.mem_cons_of_mem megaRes (List.mem_cons_self ecoRes []))

/-- The search filter does not read the `order` field. -/
theorem passesFilters_order (c : SearchCriteria) (o' T : String) :
    passesFilters { c with order := o' } T = passesFilters c T := rfl

/-- Counterexample to C4 as stated: with `order = "DESC"` the search sorts
descending (same output as `"desc"`), not ascending — the source compares
`order.lower() == "desc"`. -/
theorem counterexample_C4 :
    searchInfluencers [rowA, rowB]
      { sort_by := some "followers", order := "DESC" } "t1" = [rowB, rowA] ∧
    searchInfluencers [rowA, rowB]
      { sort_by := some "followers", order := "asc" } "t1" = [rowA, rowB] ∧
    ([rowB, rowA] : List Influencer) ≠ [rowA, rowB] := by
  refine ⟨by decide, by decide, by decide⟩

/-- C4 (amended): descending sort is applied exactly when `order`
lower-cases to `"desc"` — the comparison is case-insensitive, so `"DESC"`
also sorts descending; any value not lower-casing to `"desc"` (including
`"asc"` and arbitrary strings) yields ascending sort. -/
theorem claim_C4 :
    (∀ (db : List Influencer) (c : SearchCriteria) (T : String),
      searchInfluencers db c T =
        searchInfluencers db
          { c with order := if pyLower c.order = "desc" then "desc" else "asc" } T) ∧
    orderDesc "DESC" = true ∧ orderDesc "desc" = true ∧
    orderDesc "asc" = false ∧ orderDesc "Random" = false := by
  refine ⟨?_, by decide, by decide, by decide, by decide⟩
  intro db c T
  have horder :
      orderDesc (if pyLower c.order = "desc" then "desc" else "asc") =
        orderDesc c.order := by
    by_cases h : pyLower c.order = "desc"
    · rw [if_pos h]
      unfold orderDesc
      rw [h]
      decide
    · rw [if_neg h]
      unfold orderDesc
      have h2 : (pyLower c.order == "desc") = false := by
        simpa using h
      rw [h2]
      decide
  simp only [searchInfluencers, passesFilters_order, horder]

/-- C6: match results are ordered by descending overall score, and the
descending sort is stable — restricted to any fixed score value, the
returned results are a sublist (hence in the same relative order) of the
pre-sort candidate recommendations, which are in candidate-pool order. -/
theorem claim_C6 (brands : List Brand) (db : List Influencer) (bid : String)
    (n : Nat) (T : String) (res : List MatchResult) (brand : Brand)
    (hfind : brands.find? (fun b => b.id == bid) = some brand)
    (h : matchInfluencersForBrand brands db bid n T = .ok res) :
    res.Pairwise (fun a b => b.score ≤ a.score) ∧
    ∀ s : ℚ, List.Sublist (res.filter (fun r => r.score == s))
      ((matchRecs brand db T).filter (fun r => r.score == s)) := by
  have hT : Transitive (fun a b : MatchResult => b.score ≤ a.score) :=
    fun a b c hab hbc => le_trans hbc hab
  have hf : ∀ a b : MatchResult, afterScore a b = false → b.score ≤ a.score := by
    intro a b hab
    have := of_decide_eq_false hab
    exact le_of_not_lt this
  have ht : ∀ a b : MatchResult, afterScore a b = true → a.score ≤ b.score := by
    intro a b hab
    exact le_of_lt (of_decide_eq_true hab)
  rw [matchInfluencersForBrand] at h
  split at h
  · exact Except.noConfusion h
  · split at h
    · exact Except.noConfusion h
    · rename_i b heq
      rw [hfind] at heq
      injection heq with heq
      subst heq
      split at h
      · exact Except.noConfusion h
      · split at h
        · injection h with h'
          subst h'
          exact ⟨List.Pairwise.nil, fun s => List.nil_sublist _⟩
        · injection h with h'
          subst h'
          constructor
          · exact (sortOrd_pairwise hT hf ht _).sublist (List.take_sublist _ _)
          · intro s
            have hsub : List.Sublist
                ((List.take n (sortOrd afterScore (matchRecs brand db T))).filter
                  (fun r => r.score == s))
                ((sortOrd afterScore (matchRecs brand db T)).filter
                  (fun r => r.score == s)) :=
              (List.take_sublist _ _).filter _
            rwa [filter_sortOrd_score] at hsub

/-- Witness for C6: the worked example's output is score-descending, and
its score-0.107 slice is a sublist of the pre-sort recommendation list. -/
theorem witness_C6 :
    ([megaRes, ecoRes] : List MatchResult).Pairwise (fun a b => b.score ≤ a.score) ∧
    List.Sublist
      (([megaRes, ecoRes] : List MatchResult).filter
        (fun r => r.score == (107/1000 : ℚ)))
      ((matchRecs ecoBrand [ecoInf, megaInf] "t1").filter
        (fun r => r.score == (107/1000 : ℚ))) :=
  ⟨(claim_C6 [ecoBrand] [ecoInf, megaInf] "brand-eco" 5 "t1" [megaRes, ecoRes]
      ecoBrand rfl ecoPipeline_eq).1,
   (claim_C6 [ecoBrand] [ecoInf, megaInf] "brand-eco" 5 "t1" [megaRes, ecoRes]
      ecoBrand rfl ecoPipeline_eq).2 (107/1000)⟩

/-- C7: a successful matching request returns exactly
min(top_n, pool size) results; and an empty candidate pool after tenant
scoping yields an empty result sequence, not an error. -/
theorem claim_C7 :
    (∀ (brands : List Brand) (db : List Influencer) (bid : String) (n : Nat)
        (T : String) (res : List MatchResult),
      matchInfluencersForBrand brands db bid n T = .ok res →
      res.length = min n (candidatePool db T).length) ∧
    (∀ (brands : List Brand) (db : List Influencer) (bid : String) (n : Nat)
        (T : String) (brand : Brand), 1 ≤ n → n ≤ 50 →
      brands.find? (fun b => b.id == bid) = some brand →
      brand.tenant_id = T → candidatePool db T = [] →
      matchInfluencersForBrand brands db bid n T = .ok []) := by
  constructor
  · intro brands db bid n T res h
    rw [matchInfluencersForBrand] at h
    split at h
    · exact Except.noConfusion h
    · split at h
      · exact Except.noConfusion h
      · split at h
        · exact Except.noConfusion h
        · split at h
          · rename_i hemp
            injection h with h'
            subst h'
            rw [List.isEmpty_iff.1 hemp]
            simp
          · injection h with h'
            subst h'
            rw [List.length_take, length_sortOrd, matchRecs, List.length_map]
  · intro brands db bid n T brand h1 h50 hfind hten hpool
    rw [matchInfluencersForBrand, if_neg (by omega), hfind]
    show (if brand.tenant_id ≠ T then Except.error accessDeniedErr
          else if (candidatePool db T).isEmpty then Except.ok []
          else Except.ok
            ((sortOrd afterScore (matchRecs brand db T)).take n)) = Except.ok []
    rw [if_neg (by simp [hten]), if_pos (by simp [hpool])]

/-- Witness for C7: the worked example returns min(5, 2) = 2 results, and
a brand of an empty store yields an empty, non-error result. -/
theorem witness_C7 :
    ([megaRes, ecoRes] : List MatchResult).length =
      min 5 (candidatePool [ecoInf, megaInf] "t1").length ∧
    matchInfluencersForBrand [ecoBrand] [] "brand-eco" 5 "t1" = .ok [] :=
  ⟨claim_C7.1 [ecoBrand] [ecoInf, megaInf] "brand-eco" 5 "t1" [megaRes, ecoRes]
      ecoPipeline_eq,
   claim_C7.2 [ecoBrand] [] "brand-eco" 5 "t1" ecoBrand (by norm_num)
      (by norm_num) rfl rfl rfl⟩

/-- C8: an influencer whose `followers` (respectively `engagement_rate`) is
null satisfies the corresponding range clauses for every bound, and is
never excluded by them — its membership in the search result does not
change when the bounds are dropped.  The spec's example: with
min_followers = 100000 and platform = "instagram", a null-followers
instagram influencer is returned. -/
theorem claim_C8 :
    (∀ (c : SearchCriteria) (i : Influencer), i.followers = none →
      minFollowersPass c.min_followers i = true ∧
      maxFollowersPass c.max_followers i = true) ∧
    (∀ (c : SearchCriteria) (i : Influencer), i.engagement_rate = none →
      minEngagementPass c.min_engagement_rate i = true ∧
      maxEngagementPass c.max_engagement_rate i = true) ∧
    (∀ (db : List Influencer) (c : SearchCriteria) (T : String) (i : Influencer),
      i.followers = none →
      (i ∈ searchInfluencers db c T ↔
       i ∈ searchInfluencers db
          { c with min_followers := none, max_followers := none } T)) ∧
    (∀ (db : List Influencer) (c : SearchCriteria) (T : String) (i : Influencer),
      i.engagement_rate = none →
      (i ∈ searchInfluencers db c T ↔
       i ∈ searchInfluencers db
          { c with min_engagement_rate := none, max_engagement_rate := none } T)) ∧
    searchInfluencers [rowNull]
      { platform := some "instagram", min_followers := some 100000 } "t1" =
      [rowNull] := by
  refine ⟨?_, ?_, ?_, ?_, by decide⟩
  · intro c i h
    exact ⟨minFollowersPass_of_none _ _ h, maxFollowersPass_of_none _ _ h⟩
  · intro c i h
    exact ⟨minEngagementPass_of_none _ _ h, maxEngagementPass_of_none _ _ h⟩
  · intro db c T i h
    rw [mem_searchInfluencers, mem_searchInfluencers]
    have hpf : passesFilters { c with min_followers := none, max_followers := none } T i =
        passesFilters c T i := by
      simp only [passesFilters, minFollowersPass_of_none c.min_followers i h,
        maxFollowersPass_of_none c.max_followers i h,
        minFollowersPass_of_none none i h, maxFollowersPass_of_none none i h]
    rw [hpf]
  · intro db c T i h
    rw [mem_searchInfluencers, mem_searchInfluencers]
    have hpf : passesFilters
        { c with min_engagement_rate := none, max_engagement_rate := none } T i =
        passesFilters c T i := by
      simp only [passesFilters, minEngagementPass_of_none c.min_engagement_rate i h,
        maxEngagementPass_of_none c.max_engagement_rate i h,
        minEngagementPass_of_none none i h, maxEngagementPass_of_none none i h]
    rw [hpf]

/-- Witness for C8: the range clauses at bound 100000 pass for the
null-followers row. -/
theorem witness_C8 :
    minFollowersPass ({ min_followers := some 100000 } : SearchCriteria).min_followers
      rowNull = true ∧
    maxFollowersPass ({ min_followers := some 100000 } : SearchCriteria).max_followers
      rowNull = true :=
  claim_C8.1 { min_followers := some 100000 } rowNull rfl

/-- C10: for single-influencer read, update and delete, a nonexistent id and
an existing influencer of another tenant produce the identical 404
"Influencer not found" error, so existence is not leaked across tenants;
the brand-matching path instead distinguishes a missing brand (404 "Brand
not found") from a cross-tenant brand (403 "Access denied"). -/
theorem claim_C10 :
    (∀ (db : List Influencer) (idv T : String) (u : InfluencerUpdate),
      (db.find? (fun i => i.id == idv) = none ∨
        ∃ i, db.find? (fun j => j.id == idv) = some i ∧ i.tenant_id ≠ T) →
      getInfluencer db idv T = .error influencerNotFoundErr ∧
      updateInfluencer db idv u T = .error influencerNotFoundErr ∧
      deleteInfluencer db idv T = .error influencerNotFoundErr) ∧
    (∀ (brands : List Brand) (db : List Influencer) (bid : String) (n : Nat)
        (T : String), 1 ≤ n → n ≤ 50 →
      (brands.find? (fun b => b.id == bid) = none →
        matchInfluencersForBrand brands db bid n T = .error brandNotFoundErr) ∧
      (∀ b, brands.find? (fun b => b.id == bid) = some b → b.tenant_id ≠ T →
        matchInfluencersForBrand brands db bid n T = .error accessDeniedErr)) ∧
    brandNotFoundErr ≠ accessDeniedErr ∧
    influencerNotFoundErr.code = 404 ∧
    influencerNotFoundErr.detail = "Influencer not found" ∧
    brandNotFoundErr.code = 404 ∧ accessDeniedErr.code = 403 := by
  refine ⟨?_, ?_, by decide, rfl, rfl, rfl, rfl⟩
  · intro db idv T u hcase
    rcases hcase with hnone | ⟨i, hsome, hne⟩
    · exact ⟨by simp [getInfluencer, hnone], by simp [updateInfluencer, hnone],
        by simp [deleteInfluencer, hnone]⟩
    · exact ⟨by simp [getInfluencer, hsome, hne], by simp [updateInfluencer, hsome, hne],
        by simp [deleteInfluencer, hsome, hne]⟩
  · intro brands db bid n T h1 h50
    constructor
    · intro hnone
      rw [matchInfluencersForBrand, if_neg (by omega), hnone]
    · intro b hsome hne
      rw [matchInfluencersForBrand, if_neg (by omega), hsome]
      show (if b.tenant_id ≠ T then Except.error accessDeniedErr
            else if (candidatePool db T).isEmpty then Except.ok []
            else Except.ok
              ((sortOrd afterScore (matchRecs b db T)).take n)) =
          Except.error accessDeniedErr
      rw [if_pos hne]

/-- Witness for C10: a missing id on an empty store, and a cross-tenant
lookup of an existing row, both yield the identical 404; a missing brand
yields 404 and a cross-tenant brand yields 403. -/
theorem witness_C10 :
    getInfluencer [] "nope" "t1" = .error influencerNotFoundErr ∧
    getInfluencer [rowA] "row-a" "other-tenant" = .error influencerNotFoundErr ∧
    matchInfluencersForBrand [] [] "nope" 5 "t1" = .error brandNotFoundErr ∧
    matchInfluencersForBrand [ecoBrand] [] "brand-eco" 5 "other-tenant" =
      .error accessDeniedErr :=
  ⟨(claim_C10.1 [] "nope" "t1" {} (Or.inl rfl)).1,
   (claim_C10.1 [rowA] "row-a" "other-tenant" {}
      (Or.inr ⟨rowA, rfl, by decide⟩)).1,
   (claim_C10.2.1 [] [] "nope" 5 "t1" (by norm_num) (by norm_num)).1 rfl,
   (claim_C10.2.1 [ecoBrand] [] "brand-eco" 5 "other-tenant" (by norm_num)
      (by norm_num)).2 ecoBrand rfl (by decide)⟩

end TAIPPA
